import Mathlib

/-!
Shallow embedding of the worktree/subagent orchestration core of the
subagent-worktree-mcp repository, together with theorems settling the
frozen claims about it.

The definitions below are translated from the Rust sources:
  * `src/git_operations.rs`   — `GitWorktreeManager::create_worktree_blocking`
    and its helpers (`branch_exists`, `get_branch_commit`);
  * `src/subagent_spawner.rs` — `CursorCliAgent::spawn`, `SubagentSpawner::spawn_agent`;
  * `src/agent_monitor.rs`    — `AgentMonitor::get_running_agents`,
    `is_agent_process`, `create_agent_info`, `is_spawned_by_us`,
    `find_associated_worktree`, `is_process_waiting_for_input`;
  * `src/main.rs`             — `SubagentWorktreeServer::handle_spawn_subagent`
    and `handle_cleanup_worktree`.

External effects (libgit2 calls, the `git` subprocess, the OS process
table) are modelled by explicit state records and oracle parameters, so
every function here is executable and every branch of the Rust code has a
corresponding branch below.
-/

/-! ## Generic string helpers

`strContains s pat` models Rust `str::contains`: `pat` occurs as a
contiguous substring of `s`.  It is implemented directly on the character
lists so that it evaluates on concrete inputs.
-/

/-- Does `pat` occur as a contiguous sublist of the second argument? -/
def containsSub (pat : List Char) : List Char → Bool
  | [] => pat.isEmpty
  | c :: rest => pat.isPrefixOf (c :: rest) || containsSub pat rest

/-- Model of Rust `s.contains(pat)`: substring containment. -/
def strContains (s pat : String) : Bool :=
  containsSub pat.toList s.toList

/-! ## Path helpers

Rust `std::path::Path` values are modelled by their lists of non-empty
components; `Path::parent` drops the last component and is `none` on the
root / empty path.
-/

/-- Split a character list at `/`, accumulating the current segment. -/
def splitSlashAux : List Char → List Char → List String
  | [], cur => [String.mk cur.reverse]
  | c :: rest, cur =>
    if c = '/' then String.mk cur.reverse :: splitSlashAux rest []
    else splitSlashAux rest (c :: cur)

/-- Components of a path string, ignoring empty segments. -/
def pathComponents (s : String) : List String :=
  (splitSlashAux s.toList []).filter (fun c => !(c == ""))

/-- Model of `Path::parent`: `none` for the root, else drop the last component. -/
def parentComps : List String → Option (List String)
  | [] => none
  | cs => some cs.dropLast

/-! ## Git model (`src/git_operations.rs`)

The repository state visible to `create_worktree_blocking` is: the local
and remote branches (name paired with commit id), the branch `HEAD`
points at, the commit checked out in the main working directory, the
repository's parent directory, the directories existing in that parent
(with their file contents), and the registered worktrees.

The `git worktree add` subprocess is an oracle in `GitEnv`: whether it
succeeds and which files it materialises.  Errors mirror the `anyhow`
error sites of the Rust function one constructor per site;
`invalidBranchName` is the error named by the specification's taxonomy
and is kept in the vocabulary so that claims about it can be stated —
the embedded code never produces it.

`branchExistsChk` models `branch_exists`: libgit2's `git_branch_lookup`
on an empty name fails with an invalid-refspec error (not not-found), so
the empty name is the invalid-name case modelled here, and it surfaces
as the propagated `branchCheckFailed` error exactly as in the Rust code.
-/

inductive GitErr where
  | couldNotDetermineCurrentBranch
  | branchCheckFailed (name : String)
  | findExistingBranchFailed (name : String)
  | baseBranchNotFound (name : String)
  | noParentDirectory
  | worktreeAddFailed
  | invalidBranchName
  deriving DecidableEq

structure GitEnv where
  worktreeAddOk : Bool
  worktreeAddContents : List String
  deriving DecidableEq

structure GitState where
  localBranches : List (String × String)
  remoteBranches : List (String × String)
  headBranch : Option String
  mainCheckout : Option String
  parentDir : Option String
  dirs : List (String × List String)
  worktreeRegs : List String
  deriving DecidableEq

/-- Base-branch resolution: the explicit argument, else the current `HEAD`
branch (`head.shorthand()`), else the error raised in the Rust code. -/
def determineBase (s : GitState) (baseBranch : Option String) : Except GitErr String :=
  match baseBranch with
  | some b => .ok b
  | none =>
    match s.headBranch with
    | some n => .ok n
    | none => .error .couldNotDetermineCurrentBranch

/-- Model of `branch_exists`: an empty name makes `find_branch` fail with a
non-not-found error, which `branch_exists` propagates; otherwise report
whether the local branch exists. -/
def branchExistsChk (s : GitState) (n : String) : Except GitErr Bool :=
  if n = "" then .error (.branchCheckFailed n)
  else .ok (s.localBranches.lookup n).isSome

/-- Model of the existing-branch path: find the branch, peel its commit,
check it out in the main working directory and set `HEAD` to it. -/
def checkoutExisting (s : GitState) (n : String) : Except GitErr GitState :=
  match s.localBranches.lookup n with
  | some c => .ok { s with mainCheckout := some c, headBranch := some n }
  | none => .error (.findExistingBranchFailed n)

/-- Model of `get_branch_commit`: local lookup, then remote lookup, else
the "Branch not found" error. -/
def getBranchCommit (s : GitState) (bn : String) : Except GitErr String :=
  match s.localBranches.lookup bn with
  | some c => .ok c
  | none =>
    match s.remoteBranches.lookup bn with
    | some c => .ok c
    | none => .error (.baseBranchNotFound bn)

/-- Model of the new-branch path: resolve the base commit, create the
branch there, check it out and set `HEAD` to it. -/
def createNewBranch (s : GitState) (n bn : String) : Except GitErr GitState :=
  match getBranchCommit s bn with
  | .error e => .error e
  | .ok c =>
    .ok { s with localBranches := (n, c) :: s.localBranches,
                 mainCheckout := some c, headBranch := some n }

/-- The tail of `create_worktree_blocking` after the branch handling:
resolve the worktree path under the repository's parent directory,
return it unchanged if the directory already exists, else run the
`git worktree add` subprocess. -/
def addWorktreeStep (env : GitEnv) (s1 : GitState) (dirName : String) :
    Except GitErr String × GitState :=
  match s1.parentDir with
  | none => (.error .noParentDirectory, s1)
  | some parent =>
    let wpath := parent ++ "/" ++ dirName
    if (s1.dirs.lookup wpath).isSome then (.ok wpath, s1)
    else if env.worktreeAddOk then
      (.ok wpath,
       { s1 with dirs := (wpath, env.worktreeAddContents) :: s1.dirs,
                 worktreeRegs := wpath :: s1.worktreeRegs })
    else (.error .worktreeAddFailed, s1)

/-- Shallow embedding of `GitWorktreeManager::create_worktree_blocking`.
Returns the result together with the post-state. -/
def createWorktreeBlocking (env : GitEnv) (s : GitState) (branchName : String)
    (baseBranch : Option String) (worktreeDir : Option String) :
    Except GitErr String × GitState :=
  match determineBase s baseBranch with
  | .error e => (.error e, s)
  | .ok baseBranchName =>
    match branchExistsChk s branchName with
    | .error e => (.error e, s)
    | .ok found =>
      match (if found then checkoutExisting s branchName
             else createNewBranch s branchName baseBranchName) with
      | .error e => (.error e, s)
      | .ok s1 => addWorktreeStep env s1 (worktreeDir.getD branchName)

/-- Classifier for the error the specification taxonomy calls
`InvalidBranchName`. -/
def isInvalidBranchNameErr : Except GitErr String → Bool
  | .error .invalidBranchName => true
  | _ => false

/-- Classifier for the error the specification taxonomy calls
`BaseBranchNotFound`. -/
def isBaseBranchNotFoundErr : Except GitErr String → Bool
  | .error (.baseBranchNotFound _) => true
  | _ => false

/-! ## Agent launcher model (`src/subagent_spawner.rs`)

`CursorCliAgent::spawn` re-checks availability, spawns the `cursor-cli`
process, feeds the prompt over stdin, and then either detaches (the exit
status is monitored by a background task and only logged) or waits in
place.  In the waiting branch a non-zero exit status is only logged with
`warn!` — the function still returns `Ok(())`; an error is returned only
when waiting on the process itself fails.  Availability, spawn success
and the process outcome are oracle inputs in `SpawnEnv`.

`agentProcessFailed` is the error named by the specification's taxonomy
(`AgentProcessFailed{exit_code}`); it is kept in the vocabulary so that
claims about it can be stated — the embedded code never produces it.
-/

/-- `AgentOptions` of `src/subagent_spawner.rs` (`custom_options` as an
association list, preserving insertion order like `IndexMap`). -/
structure AgentOptions where
  new_window : Bool
  wait : Bool
  detach : Bool
  custom_options : List (String × String)
  deriving DecidableEq

/-- The `Default` impl of `AgentOptions`. -/
def AgentOptions.default : AgentOptions :=
  { new_window := true, wait := true, detach := false, custom_options := [] }

/-- Outcome of awaiting the spawned process: an exit code, or an error
from `wait()` itself. -/
inductive ProcOutcome where
  | exited (code : Int)
  | waitErr
  deriving DecidableEq

structure SpawnEnv where
  available : Bool
  spawnOk : Bool
  outcome : ProcOutcome
  deriving DecidableEq

inductive SpawnErr where
  | agentUnavailable
  | spawnFailed
  | waitForProcessFailed
  | agentProcessFailed (code : Int)
  | agentNotFound (name : String)
  deriving DecidableEq

/-- Shallow embedding of `CursorCliAgent::spawn`.  In the non-detached
branch the exit status of the process is inspected only for logging:
`Ok(())` is returned for any exit code. -/
def spawnResult (env : SpawnEnv) (o : AgentOptions) : Except SpawnErr Unit :=
  if !env.available then .error .agentUnavailable
  else if !env.spawnOk then .error .spawnFailed
  else if o.detach then .ok ()
  else
    match env.outcome with
    | .exited _ => .ok ()
    | .waitErr => .error .waitForProcessFailed

/-- Does the call suspend the caller until the process exits?  Only the
non-detached branch reaches `process.wait().await` on the caller's path. -/
def spawnWaitsForExit (env : SpawnEnv) (o : AgentOptions) : Bool :=
  env.available && env.spawnOk && !o.detach

/-- Classifier for the specification's `AgentProcessFailed` error. -/
def isAgentProcessFailedErr : Except SpawnErr Unit → Bool
  | .error (.agentProcessFailed _) => true
  | _ => false

/-! ## Agent dispatch (`SubagentSpawner::spawn_agent` and `main.rs`)

`SubagentWorktreeServer::new` registers exactly one agent,
`CursorCliAgent`, whose `name()` is `"cursor-cli"`.
`handle_spawn_subagent` defaults a missing `agent_type` to the literal
`"cursor-agent"` and `spawn_agent` looks that name up in the registry by
equality.
-/

/-- `CursorCliAgent::name` (`src/subagent_spawner.rs`). -/
def cursorCliAgentName : String := "cursor-cli"

/-- The names of the agents registered by `SubagentWorktreeServer::new`
(`src/main.rs`): the single `CursorCliAgent`. -/
def serverRegisteredAgents : List String := [cursorCliAgentName]

/-- The default used by `handle_spawn_subagent` when `agent_type` is
omitted (`src/main.rs`). -/
def defaultAgentType : String := "cursor-agent"

/-- Shallow embedding of the dispatch step of `SubagentSpawner::spawn_agent`:
find the registered agent with the requested name, else the
"Agent not found" error. -/
def spawnAgentLookup (registry : List String) (agentName : String) :
    Except SpawnErr String :=
  match registry.find? (fun a => a == agentName) with
  | some a => .ok a
  | none => .error (.agentNotFound agentName)

/-! ## Process inspector model (`src/agent_monitor.rs`)

A process-table snapshot is a list of `ProcInfo` records; `stdinLink`
models the target of the `/proc/pid/fd/0` symlink read by
`is_process_waiting_for_input` (`none` when the link cannot be read).
CPU usage is abstracted to a natural number — no claim depends on it.
-/

structure ProcInfo where
  pid : Nat
  name : String
  cmd : List String
  cwd : String
  cpu_usage : Nat
  memory_usage : Nat
  start_time : Nat
  stdinLink : Option String
  deriving DecidableEq

/-- `AgentProcessInfo` of `src/agent_monitor.rs`. -/
structure AgentProcessInfo where
  pid : Nat
  name : String
  cmd : List String
  cwd : String
  waiting_for_input : Bool
  cpu_usage : Nat
  memory_usage : Nat
  start_time : Nat
  spawned_by_us : Bool
  worktree_path : Option String
  deriving DecidableEq

/-- `AgentMonitorConfig` of `src/agent_monitor.rs`. -/
structure AgentMonitorConfig where
  only_our_agents : Bool
  only_waiting_agents : Bool
  agent_types : Option (List String)
  worktree_paths : Option (List String)
  deriving DecidableEq

/-- The derived `Default` of `AgentMonitorConfig`: no filtering at all. -/
def defaultMonitorConfig : AgentMonitorConfig :=
  { only_our_agents := false, only_waiting_agents := false,
    agent_types := none, worktree_paths := none }

/-- The allow-list of `is_agent_process`. -/
def agentNames : List String :=
  ["cursor", "cursor-cli", "code", "code-cli", "vim", "nvim", "emacs",
   "sublime", "atom", "brackets", "webstorm", "intellij", "pycharm",
   "clion", "rider", "goland", "phpstorm", "rubymine", "datagrip",
   "android-studio", "fleet", "zed", "lapce", "helix", "kakoune"]

/-- Characterwise lowercasing, modelling Rust `str::to_lowercase` on the
ASCII process names involved. -/
def lowerStr (s : String) : String := String.mk (s.toList.map Char.toLower)

/-- `AgentMonitor::is_agent_process`: case-insensitive substring match of
the process name against the allow-list. -/
def isAgentProcess (p : ProcInfo) : Bool :=
  agentNames.any (fun a => strContains (lowerStr p.name) a)

/-- `is_process_waiting_for_input`: true when the stdin symlink resolves
to a terminal device, false otherwise (including when unreadable). -/
def isProcessWaitingForInput (stdinLink : Option String) : Bool :=
  match stdinLink with
  | some link => strContains link "pts" || strContains link "tty"
  | none => false

/-- `AgentMonitor::find_associated_worktree`: the process's working
directory is associated when its parent's parent equals the repository's
parent directory (`repo_path.parent().unwrap_or(repo_path)`); the
returned path is the working directory itself. -/
def findAssociatedWorktree (repoPath : String) (dir : String) : Option String :=
  let repoParent :=
    match parentComps (pathComponents repoPath) with
    | some p => p
    | none => pathComponents repoPath
  match parentComps (pathComponents dir) with
  | some parent =>
    match parentComps parent with
    | some gp => if gp == repoParent then some dir else none
    | none => none
  | none => none

/-- The marker tokens of `is_spawned_by_us`. -/
def ourPatterns : List String :=
  ["--new-window", "--wait", "cursor-cli", "code --new-window"]

/-- Does the space-joined command line contain a marker token? -/
def containsMarker (cmd : List String) : Bool :=
  ourPatterns.any (fun pat => strContains (String.intercalate " " cmd) pat)

/-- `AgentMonitor::is_spawned_by_us`: worktree association of the working
directory, and then a marker token in the command line; `false` when the
directory is not associated. -/
def isSpawnedByUs (repoPath : String) (cmd : List String) (cwd : String) : Bool :=
  match findAssociatedWorktree repoPath cwd with
  | some _ => containsMarker cmd
  | none => false

/-- `AgentMonitor::create_agent_info`. -/
def createAgentInfo (repoPath : String) (p : ProcInfo) : AgentProcessInfo :=
  { pid := p.pid, name := p.name, cmd := p.cmd, cwd := p.cwd,
    waiting_for_input := isProcessWaitingForInput p.stdinLink,
    cpu_usage := p.cpu_usage, memory_usage := p.memory_usage,
    start_time := p.start_time,
    spawned_by_us := isSpawnedByUs repoPath p.cmd p.cwd,
    worktree_path := findAssociatedWorktree repoPath p.cwd }

/-- The filter cascade of `get_running_agents`, as one conjunction: each
`continue` in the Rust loop corresponds to one conjunct being false. -/
def passesFilter (cfg : AgentMonitorConfig) (a : AgentProcessInfo) : Bool :=
  (!cfg.only_our_agents || a.spawned_by_us) &&
  ((!cfg.only_waiting_agents || a.waiting_for_input) &&
   ((match cfg.agent_types with
     | none => true
     | some ts => ts.contains a.name) &&
    (match cfg.worktree_paths with
     | none => true
     | some wps =>
       match a.worktree_path with
       | some wt => wps.any (fun wp => strContains wt wp)
       | none => false)))

/-- Shallow embedding of `AgentMonitor::get_running_agents` over a
snapshot: classify, filter, and sort ascending by PID
(`agents.sort_by_key(pid)`). -/
def getRunningAgents (repoPath : String) (cfg : AgentMonitorConfig)
    (procs : List ProcInfo) : List AgentProcessInfo :=
  (((procs.filter isAgentProcess).map (createAgentInfo repoPath)).filter
    (passesFilter cfg)).mergeSort (fun a b => a.pid ≤ b.pid)

/-! ## Cleanup model (`SubagentWorktreeServer::handle_cleanup_worktree`)

The handler checks the repository, resolves the worktree path under the
parent directory, optionally runs the kill step, removes the worktree,
and optionally removes the branch.  The kill step in the source
(`kill_agents_in_worktree`) is a stub that logs and kills no process; it
ignores whatever agents are running and never fails.  The model records
the order of the performed steps as an event trace and the number of
processes killed, with the subprocess outcomes as oracle inputs.
-/

structure CleanupConfig where
  worktree_name : String
  force : Bool
  remove_branch : Bool
  kill_agents : Bool
  deriving DecidableEq

structure CleanupEnv where
  isGitRepo : Bool
  parentDir : Option String
  worktreeExists : Bool
  removeWorktreeOk : Bool
  branchDeleteOk : Bool
  agentsRunningInDir : Nat
  deriving DecidableEq

inductive CleanupErr where
  | notAGitRepository
  | noParentDirectory
  | worktreeDoesNotExist (name : String)
  | worktreeRemoveFailed
  | branchDeleteFailed
  deriving DecidableEq

inductive CleanupEvent where
  | killAgents (forced : Bool)
  | removeWorktree
  | removeBranch
  deriving DecidableEq

/-- The success message of `handle_cleanup_worktree`
(`"Successfully cleaned up worktree '<name>'"`, with
`" and removed branch"` appended when the branch was removed). -/
def cleanupMsg (cfg : CleanupConfig) : String :=
  "Successfully cleaned up worktree \x27" ++ cfg.worktree_name ++ "\x27" ++
    (if cfg.remove_branch then " and removed branch" else "")

/-- Shallow embedding of `handle_cleanup_worktree`: result, ordered event
trace, and number of agent processes killed.  The kill step is the
source's stub: it appears in the trace, kills zero processes whatever
`agentsRunningInDir` is, and never fails. -/
def handleCleanupWorktree (env : CleanupEnv) (cfg : CleanupConfig) :
    Except CleanupErr String × List CleanupEvent × Nat :=
  if !env.isGitRepo then (.error .notAGitRepository, [], 0)
  else
    match env.parentDir with
    | none => (.error .noParentDirectory, [], 0)
    | some _ =>
      if !env.worktreeExists then
        (.error (.worktreeDoesNotExist cfg.worktree_name), [], 0)
      else
        let killEvents : List CleanupEvent :=
          if cfg.kill_agents then [.killAgents cfg.force] else []
        let events1 := killEvents ++ [.removeWorktree]
        if !env.removeWorktreeOk then (.error .worktreeRemoveFailed, events1, 0)
        else if cfg.remove_branch then
          let events2 := events1 ++ [.removeBranch]
          if !env.branchDeleteOk then (.error .branchDeleteFailed, events2, 0)
          else (.ok (cleanupMsg cfg), events2, 0)
        else (.ok (cleanupMsg cfg), events1, 0)

deriving instance DecidableEq for Except

/-! ## Concrete fixtures

Small concrete repository states, process snapshots and environments,
used to instantiate the theorems below on explicit inputs.
-/

/-- A `git worktree add` oracle that succeeds and materialises one file. -/
def envAddOk : GitEnv := { worktreeAddOk := true, worktreeAddContents := ["README.md"] }

/-- A repository with a single branch `main`, checked out, parent `/repos`. -/
def repoMain : GitState :=
  { localBranches := [("main", "c0")], remoteBranches := [],
    headBranch := some "main", mainCheckout := some "c0",
    parentDir := some "/repos", dirs := [], worktreeRegs := [] }

/-- The state produced by a successful `create_worktree("feature-x")` on
`repoMain` under `envAddOk` (checked by `rfl` where used). -/
def repoMainAfterFeature : GitState :=
  { localBranches := [("feature-x", "c0"), ("main", "c0")], remoteBranches := [],
    headBranch := some "feature-x", mainCheckout := some "c0",
    parentDir := some "/repos",
    dirs := [("/repos/feature-x", ["README.md"])],
    worktreeRegs := ["/repos/feature-x"] }

/-- A repository where branch `feature-x` and its worktree directory
already exist, but `HEAD` is on `main`. -/
def repoFeatureExists : GitState :=
  { localBranches := [("feature-x", "c1"), ("main", "c0")], remoteBranches := [],
    headBranch := some "main", mainCheckout := some "c0",
    parentDir := some "/repos", dirs := [("/repos/feature-x", ["f.txt"])],
    worktreeRegs := ["/repos/feature-x"] }

/-- A `vim` process working one level inside a sibling directory of the
repository, with no marker token on its command line. -/
def pvim : ProcInfo :=
  { pid := 5, name := "vim", cmd := ["vim"], cwd := "/home/u/feature-x/sub",
    cpu_usage := 0, memory_usage := 0, start_time := 0, stdinLink := none }

/-- A filter configuration restricting to `vim` agents. -/
def cfgVimOnly : AgentMonitorConfig :=
  { only_our_agents := false, only_waiting_agents := false,
    agent_types := some ["vim"], worktree_paths := none }

/-- A cleanup environment in which every step can succeed and no agent
process is running in the worktree directory. -/
def cleanupEnvOk : CleanupEnv :=
  { isGitRepo := true, parentDir := some "/repos", worktreeExists := true,
    removeWorktreeOk := true, branchDeleteOk := true, agentsRunningInDir := 0 }

/-- The cleanup request of the scenario: kill agents and remove the branch. -/
def cleanupCfgFull : CleanupConfig :=
  { worktree_name := "feature-x", force := false,
    remove_branch := true, kill_agents := true }

/-! ## Theorems settling the claims -/

/-- Claim C1, counterexample: with the default options (`wait = true`,
`detach = false`), an available agent whose process exits with status 1
still makes `spawn` return success — it does not fail with
`AgentProcessFailed{1}` as the claim requires, and it returns success on
a non-zero exit. -/
theorem spawn_wait_nonzero_exit_cex :
    AgentOptions.default.wait = true ∧
    AgentOptions.default.detach = false ∧
    spawnResult { available := true, spawnOk := true, outcome := .exited 1 }
        AgentOptions.default = .ok () ∧
    isAgentProcessFailedErr
      (spawnResult { available := true, spawnOk := true, outcome := .exited 1 }
        AgentOptions.default) = false :=
  ⟨rfl, rfl, rfl, rfl⟩

/-- Claim C1, amended: when `detach` is false, a successful spawn
suspends the caller until the process exits, but the exit code does not
affect the outcome — the call returns success for every exit code (a
non-zero status is only logged); it fails only when availability, the
spawn, or waiting itself fails. -/
theorem spawn_wait_ignores_exit_code (env : SpawnEnv) (o : AgentOptions) (c : Int)
    (ha : env.available = true) (hs : env.spawnOk = true) (hd : o.detach = false)
    (ho : env.outcome = .exited c) :
    spawnResult env o = .ok () ∧ spawnWaitsForExit env o = true := by
  unfold spawnResult spawnWaitsForExit
  rw [ha, hs, hd, ho]
  simp

/-- Witness for `spawn_wait_ignores_exit_code` at exit code 7. -/
theorem spawn_wait_ignores_exit_code_witness :
    spawnResult { available := true, spawnOk := true, outcome := .exited 7 }
        AgentOptions.default = .ok () ∧
    spawnWaitsForExit { available := true, spawnOk := true, outcome := .exited 7 }
        AgentOptions.default = true :=
  spawn_wait_ignores_exit_code
    { available := true, spawnOk := true, outcome := .exited 7 }
    AgentOptions.default 7 rfl rfl rfl rfl

/-- Claim C4, amended: for a non-empty requested branch name that does
not exist locally, and a base branch that exists neither locally nor
remotely, `create_worktree` fails with the base-branch-not-found error
and leaves the repository state completely unchanged. -/
theorem create_worktree_missing_base_atomic (env : GitEnv) (s : GitState)
    (n bn : String) (w : Option String) (hn : n ≠ "")
    (hnb : s.localBranches.lookup n = none)
    (hbl : s.localBranches.lookup bn = none)
    (hbr : s.remoteBranches.lookup bn = none) :
    createWorktreeBlocking env s n (some bn) w
      = (.error (.baseBranchNotFound bn), s) := by
  unfold createWorktreeBlocking determineBase branchExistsChk createNewBranch
    getBranchCommit
  simp [hn, hnb, hbl, hbr]

/-- Witness for `create_worktree_missing_base_atomic` on `repoMain`. -/
theorem create_worktree_missing_base_atomic_witness :
    createWorktreeBlocking envAddOk repoMain "feature-x" (some "does-not-exist") none
      = (.error (.baseBranchNotFound "does-not-exist"), repoMain) :=
  create_worktree_missing_base_atomic envAddOk repoMain "feature-x"
    "does-not-exist" none (by decide) rfl rfl rfl

/-- Claim C4, counterexample: with the empty branch name (which does not
exist as a branch) and a base branch that exists nowhere, the premise of
the claim holds, yet the operation fails with the branch-existence-check
error propagated from the git library, not with `BaseBranchNotFound`. -/
theorem create_worktree_missing_base_empty_name_cex :
    repoMain.localBranches.lookup "does-not-exist" = none ∧
    repoMain.remoteBranches.lookup "does-not-exist" = none ∧
    repoMain.localBranches.lookup "" = none ∧
    isBaseBranchNotFoundErr
      (createWorktreeBlocking envAddOk repoMain "" (some "does-not-exist") none).1
        = false ∧
    (createWorktreeBlocking envAddOk repoMain "" (some "does-not-exist") none).1
      = .error (.branchCheckFailed "") :=
  ⟨rfl, rfl, rfl, rfl, rfl⟩

/-- Claim C8: the `handle_spawn_subagent` default agent type
`"cursor-agent"` is not the name of the sole registered agent
(`"cursor-cli"`), so the dispatch lookup of the default name against the
registry fails with the agent-not-found error. -/
theorem default_agent_type_not_registered :
    spawnAgentLookup serverRegisteredAgents defaultAgentType
        = .error (.agentNotFound "cursor-agent") ∧
    (cursorCliAgentName == defaultAgentType) = false :=
  ⟨rfl, rfl⟩

/-- Helper: the invalid-branch-name classifier rejects every other error. -/
theorem errNotInvalid (e : GitErr) (h : e ≠ GitErr.invalidBranchName) :
    isInvalidBranchNameErr (Except.error e) = false := by
  cases e <;> simp_all [isInvalidBranchNameErr]

/-- Helper: base-branch resolution never raises `invalidBranchName`. -/
theorem determineBase_err_shape (s : GitState) (b : Option String) (e : GitErr)
    (h : determineBase s b = .error e) : e ≠ GitErr.invalidBranchName := by
  unfold determineBase at h
  split at h
  · exact absurd h (by simp)
  · split at h
    · exact absurd h (by simp)
    · injection h with h2
      subst h2
      simp

/-- Helper: the branch-existence check never raises `invalidBranchName`. -/
theorem branchExistsChk_err_shape (s : GitState) (n : String) (e : GitErr)
    (h : branchExistsChk s n = .error e) : e ≠ GitErr.invalidBranchName := by
  unfold branchExistsChk at h
  split at h
  · injection h with h2
    subst h2
    simp
  · exact absurd h (by simp)

/-- Helper: the existing-branch checkout never raises `invalidBranchName`. -/
theorem checkoutExisting_err_shape (s : GitState) (n : String) (e : GitErr)
    (h : checkoutExisting s n = .error e) : e ≠ GitErr.invalidBranchName := by
  unfold checkoutExisting at h
  split at h
  · exact absurd h (by simp)
  · injection h with h2
    subst h2
    simp

/-- Helper: branch creation never raises `invalidBranchName`. -/
theorem createNewBranch_err_shape (s : GitState) (n bn : String) (e : GitErr)
    (h : createNewBranch s n bn = .error e) : e ≠ GitErr.invalidBranchName := by
  unfold createNewBranch at h
  split at h
  · rename_i e2 heq
    injection h with h2
    subst h2
    unfold getBranchCommit at heq
    split at heq
    · exact absurd heq (by simp)
    · split at heq
      · exact absurd heq (by simp)
      · injection heq with h3
        subst h3
        simp
  · exact absurd h (by simp)

/-- Claim C2, amended: `create_worktree` performs no branch-name
precondition check.  With an empty `branch_name` it does always fail, but
with the error propagated from the git branch-existence lookup (an empty
name is an invalid reference), not with a dedicated `InvalidBranchName`
error; no input whatsoever produces an `InvalidBranchName` error. -/
theorem create_worktree_no_invalid_branch_name_check :
    (∀ (env : GitEnv) (s : GitState) (b : String) (w : Option String),
      createWorktreeBlocking env s "" (some b) w
        = (.error (.branchCheckFailed ""), s)) ∧
    (∀ (env : GitEnv) (s : GitState) (n : String) (b w : Option String),
      isInvalidBranchNameErr (createWorktreeBlocking env s n b w).1 = false) := by
  constructor
  · intro env s b w
    unfold createWorktreeBlocking determineBase branchExistsChk
    simp
  · intro env s n b w
    unfold createWorktreeBlocking
    split
    · rename_i e heq
      exact errNotInvalid e (determineBase_err_shape s b e heq)
    · rename_i bn heq
      split
      · rename_i e heq2
        exact errNotInvalid e (branchExistsChk_err_shape s n e heq2)
      · rename_i found heq2
        split
        · rename_i e heq3
          by_cases hf : found = true
          · rw [if_pos hf] at heq3
            exact errNotInvalid e (checkoutExisting_err_shape s n e heq3)
          · rw [if_neg hf] at heq3
            exact errNotInvalid e (createNewBranch_err_shape s n bn e heq3)
        · rename_i s1 heq3
          unfold addWorktreeStep
          split
          · rfl
          · rename_i parent hpar
            dsimp only
            split
            · rfl
            · split
              · rfl
              · rfl

/-- Claim C2, counterexample: on a concrete repository, calling
`create_worktree` with the empty branch name fails — but with the
branch-existence-check error, not with `InvalidBranchName` as the claim
states. -/
theorem create_worktree_empty_name_cex :
    (createWorktreeBlocking envAddOk repoMain "" (some "main") none).1
      = .error (.branchCheckFailed "") ∧
    isInvalidBranchNameErr
      (createWorktreeBlocking envAddOk repoMain "" (some "main") none).1 = false :=
  ⟨rfl, rfl⟩

/-- Helper: `addWorktreeStep` returns the existing path unchanged when the
worktree directory is already on disk. -/
theorem addWorktreeStep_dir_exists (env : GitEnv) (s1 : GitState) (d parent : String)
    (hp : s1.parentDir = some parent)
    (hd : (s1.dirs.lookup (parent ++ "/" ++ d)).isSome = true) :
    addWorktreeStep env s1 d = (.ok (parent ++ "/" ++ d), s1) := by
  unfold addWorktreeStep
  rw [hp]
  dsimp only
  rw [if_pos hd]

/-- Helper: `addWorktreeStep` never touches the `HEAD` branch. -/
theorem addWorktreeStep_head (env : GitEnv) (s1 : GitState) (d : String) :
    ((addWorktreeStep env s1 d).2).headBranch = s1.headBranch := by
  unfold addWorktreeStep
  split
  · rfl
  · dsimp only
    split
    · rfl
    · split
      · rfl
      · rfl

/-- Helper: facts available after a successful `addWorktreeStep`. -/
theorem addWorktreeStep_ok_facts (env : GitEnv) (s1 : GitState) (d p : String)
    (s2 : GitState) (h : addWorktreeStep env s1 d = (.ok p, s2)) :
    (∃ parent, s1.parentDir = some parent ∧ p = parent ++ "/" ++ d) ∧
    (s2.dirs.lookup p).isSome = true ∧
    s2.headBranch = s1.headBranch ∧
    s2.parentDir = s1.parentDir ∧
    s2.localBranches = s1.localBranches := by
  unfold addWorktreeStep at h
  split at h
  · simp at h
  · rename_i parent hpar
    dsimp only at h
    split at h
    · rename_i hdir
      obtain ⟨h1, h2⟩ := Prod.mk.injEq .. ▸ h
      injection h1 with h1
      subst h1
      subst h2
      exact ⟨⟨parent, hpar, rfl⟩, hdir, rfl, rfl, rfl⟩
    · rename_i hdir
      split at h
      · obtain ⟨h1, h2⟩ := Prod.mk.injEq .. ▸ h
        injection h1 with h1
        subst h1
        subst h2
        refine ⟨⟨parent, hpar, rfl⟩, ?_, rfl, rfl, rfl⟩
        simp [List.lookup]
      · simp at h

/-- Helper: a successful branch-existence check means the name is
non-empty and reports local existence. -/
theorem branchExistsChk_ok_facts (s : GitState) (n : String) (found : Bool)
    (h : branchExistsChk s n = .ok found) :
    n ≠ "" ∧ found = (s.localBranches.lookup n).isSome := by
  unfold branchExistsChk at h
  split at h
  · simp at h
  · rename_i hne
    injection h with h1
    exact ⟨hne, h1.symm⟩

/-- Helper: after a successful branch-handling step the branch exists
locally, `HEAD` points at it, and neither the parent directory nor the
directories on disk changed. -/
theorem branchHandling_ok_facts (s : GitState) (n bn : String) (found : Bool)
    (s1 : GitState)
    (h : (if found then checkoutExisting s n else createNewBranch s n bn) = .ok s1) :
    (s1.localBranches.lookup n).isSome = true ∧
    s1.headBranch = some n ∧
    s1.parentDir = s.parentDir ∧
    s1.dirs = s.dirs := by
  by_cases hf : found = true
  · rw [if_pos hf] at h
    unfold checkoutExisting at h
    split at h
    · rename_i c hc
      injection h with h1
      subst h1
      exact ⟨by simp [hc], rfl, rfl, rfl⟩
    · simp at h
  · rw [if_neg hf] at h
    unfold createNewBranch at h
    split at h
    · simp at h
    · rename_i c hc
      injection h with h1
      subst h1
      refine ⟨?_, rfl, rfl, rfl⟩
      simp [List.lookup]

/-- Helper: facts available after a successful `create_worktree`. -/
theorem createWorktree_ok_facts (env : GitEnv) (s : GitState) (n : String)
    (b w : Option String) (p : String) (s1 : GitState)
    (h : createWorktreeBlocking env s n b w = (.ok p, s1)) :
    n ≠ "" ∧
    (s1.localBranches.lookup n).isSome = true ∧
    s1.headBranch = some n ∧
    s1.parentDir = s.parentDir ∧
    (∃ parent, s.parentDir = some parent ∧ p = parent ++ "/" ++ w.getD n) ∧
    (s1.dirs.lookup p).isSome = true := by
  unfold createWorktreeBlocking at h
  split at h
  · simp at h
  · rename_i bn hdb
    split at h
    · simp at h
    · rename_i found hbe
      split at h
      · simp at h
      · rename_i sb hbh
        obtain ⟨hne, _⟩ := branchExistsChk_ok_facts s n found hbe
        obtain ⟨hlk, hhd, hpd, hdirs⟩ := branchHandling_ok_facts s n bn found sb hbh
        obtain ⟨⟨parent, hpar, hpe⟩, hdir2, hh2, hp2, hl2⟩ :=
          addWorktreeStep_ok_facts env sb (w.getD n) p s1 h
        refine ⟨hne, ?_, ?_, ?_, ⟨parent, ?_, hpe⟩, hdir2⟩
        · rw [hl2]
          exact hlk
        · rw [hh2, hhd]
        · rw [hp2, hpd]
        · rw [← hpd]
          exact hpar

/-- Claim C3: `create_worktree` is idempotent — if a first call succeeded
returning path `p`, a second call with identical arguments also returns
`p` without error, and the directories on disk (in particular the
contents of the worktree at `p`) are exactly those after the first
call. -/
theorem create_worktree_idempotent (env env2 : GitEnv) (s : GitState)
    (n : String) (b w : Option String) (p : String) (s1 : GitState)
    (h : createWorktreeBlocking env s n b w = (.ok p, s1)) :
    (createWorktreeBlocking env2 s1 n b w).1 = .ok p ∧
    ((createWorktreeBlocking env2 s1 n b w).2).dirs = s1.dirs := by
  obtain ⟨hn, hlk, hhead, hpar, ⟨parent, hp, hpe⟩, hdir⟩ :=
    createWorktree_ok_facts env s n b w p s1 h
  have hdb : ∃ bn2, determineBase s1 b = .ok bn2 := by
    cases b with
    | some x => exact ⟨x, rfl⟩
    | none =>
      refine ⟨n, ?_⟩
      unfold determineBase
      rw [hhead]
  obtain ⟨bn2, hdb⟩ := hdb
  have hbe : branchExistsChk s1 n = .ok true := by
    unfold branchExistsChk
    rw [if_neg hn, hlk]
  obtain ⟨c, hc⟩ := Option.isSome_iff_exists.mp hlk
  unfold createWorktreeBlocking
  rw [hdb, hbe]
  dsimp only
  unfold checkoutExisting
  rw [hc]
  rw [if_pos rfl]
  dsimp only
  have hstep := addWorktreeStep_dir_exists env2
    { s1 with mainCheckout := some c, headBranch := some n } (w.getD n) parent
    (by dsimp only; rw [hpar]; exact hp)
    (by dsimp only; rw [← hpe]; exact hdir)
  rw [hstep, hpe]
  exact ⟨rfl, rfl⟩

/-- Witness for `create_worktree_idempotent`: a first successful creation
of `feature-x` on `repoMain`, then the second identical call. -/
theorem create_worktree_idempotent_witness :
    (createWorktreeBlocking envAddOk repoMainAfterFeature "feature-x" none none).1
      = .ok "/repos/feature-x" ∧
    ((createWorktreeBlocking envAddOk repoMainAfterFeature "feature-x" none none).2).dirs
      = repoMainAfterFeature.dirs :=
  create_worktree_idempotent envAddOk envAddOk repoMain "feature-x" none none
    "/repos/feature-x" repoMainAfterFeature rfl

/-- Claim C10: whenever the branch-handling step completes (the branch
already exists, or the base branch resolves to a commit), the main
repository `HEAD` is switched to the requested branch as a side effect —
in particular also on the early-return path where the worktree directory
already exists and the call succeeds with that path. -/
theorem create_worktree_head_side_effect (env : GitEnv) (s : GitState)
    (n bn : String) (b w : Option String)
    (hbase : determineBase s b = .ok bn) (hn : n ≠ "")
    (hbr : (s.localBranches.lookup n).isSome = true ∨
           (∃ c, getBranchCommit s bn = .ok c)) :
    ((createWorktreeBlocking env s n b w).2).headBranch = some n ∧
    (∀ parent, s.parentDir = some parent →
      (s.dirs.lookup (parent ++ "/" ++ w.getD n)).isSome = true →
      (createWorktreeBlocking env s n b w).1 = .ok (parent ++ "/" ++ w.getD n)) := by
  have hbe : branchExistsChk s n = .ok ((s.localBranches.lookup n).isSome) := by
    unfold branchExistsChk
    rw [if_neg hn]
  have hs1 : ∃ s1, (if (s.localBranches.lookup n).isSome then checkoutExisting s n
                    else createNewBranch s n bn) = .ok s1 ∧
      s1.headBranch = some n ∧ s1.parentDir = s.parentDir ∧ s1.dirs = s.dirs := by
    cases hlk : (s.localBranches.lookup n).isSome with
    | true =>
      obtain ⟨c, hc⟩ := Option.isSome_iff_exists.mp hlk
      refine ⟨{ s with mainCheckout := some c, headBranch := some n },
        ?_, rfl, rfl, rfl⟩
      rw [if_pos rfl]
      unfold checkoutExisting
      rw [hc]
    | false =>
      have hright : ∃ c, getBranchCommit s bn = .ok c := by
        rcases hbr with hl | hr
        · rw [hlk] at hl
          exact absurd hl (by simp)
        · exact hr
      obtain ⟨c, hc⟩ := hright
      refine ⟨{ s with localBranches := (n, c) :: s.localBranches,
                       mainCheckout := some c, headBranch := some n },
        ?_, rfl, rfl, rfl⟩
      rw [if_neg (by simp)]
      unfold createNewBranch
      rw [hc]
  obtain ⟨s1, hbh, hh, hpd, hdd⟩ := hs1
  unfold createWorktreeBlocking
  rw [hbase]
  dsimp only
  rw [hbe]
  dsimp only
  rw [hbh]
  dsimp only
  constructor
  · rw [addWorktreeStep_head]
    exact hh
  · intro parent hpar hdir
    have hstep := addWorktreeStep_dir_exists env s1 (w.getD n) parent
      (by rw [hpd]; exact hpar) (by rw [hdd]; exact hdir)
    rw [hstep]

/-- Witness for `create_worktree_head_side_effect`: on a repository where
branch `feature-x` and its worktree directory already exist and `HEAD` is
on `main`, the call early-returns the existing path and still moves
`HEAD` to `feature-x`. -/
theorem create_worktree_head_side_effect_witness :
    ((createWorktreeBlocking envAddOk repoFeatureExists "feature-x" none none).2).headBranch
      = some "feature-x" ∧
    (createWorktreeBlocking envAddOk repoFeatureExists "feature-x" none none).1
      = .ok "/repos/feature-x" :=
  ⟨(create_worktree_head_side_effect envAddOk repoFeatureExists "feature-x" "main"
      none none rfl (by decide) (Or.inl rfl)).1,
   (create_worktree_head_side_effect envAddOk repoFeatureExists "feature-x" "main"
      none none rfl (by decide) (Or.inl rfl)).2 "/repos" rfl (by decide)⟩

/-- Helper: the derived `Default` configuration filters nothing out. -/
theorem passesFilter_default (a : AgentProcessInfo) :
    passesFilter defaultMonitorConfig a = true := rfl

/-- Claim C5: for every snapshot and every filter configuration, every
record returned by `get_running_agents` under that configuration is also
returned under the default (empty) configuration — filtering never adds
records. -/
theorem get_running_agents_filter_subset (repo : String)
    (cfg : AgentMonitorConfig) (procs : List ProcInfo) (a : AgentProcessInfo)
    (h : a ∈ getRunningAgents repo cfg procs) :
    a ∈ getRunningAgents repo defaultMonitorConfig procs := by
  unfold getRunningAgents at h ⊢
  rw [List.mem_mergeSort] at h ⊢
  rw [List.mem_filter] at h ⊢
  exact ⟨h.1, passesFilter_default a⟩

/-- Witness for `get_running_agents_filter_subset`: a `vim` process that
passes the `agent_types := ["vim"]` filter is also listed under the
default configuration. -/
theorem get_running_agents_filter_subset_witness :
    createAgentInfo "/home/u/repo" pvim
        ∈ getRunningAgents "/home/u/repo" cfgVimOnly [pvim] ∧
    createAgentInfo "/home/u/repo" pvim
        ∈ getRunningAgents "/home/u/repo" defaultMonitorConfig [pvim] :=
  ⟨by unfold getRunningAgents; rw [List.mem_mergeSort]; decide,
   get_running_agents_filter_subset "/home/u/repo" cfgVimOnly [pvim]
     (createAgentInfo "/home/u/repo" pvim)
     (by unfold getRunningAgents; rw [List.mem_mergeSort]; decide)⟩

/-- Claim C6: for every snapshot and every filter configuration, the
records returned by `get_running_agents` are sorted in ascending order of
the `pid` field. -/
theorem get_running_agents_sorted (repo : String) (cfg : AgentMonitorConfig)
    (procs : List ProcInfo) :
    (getRunningAgents repo cfg procs).Pairwise (fun a b => a.pid ≤ b.pid) := by
  unfold getRunningAgents
  exact (List.sorted_mergeSort
    (fun a b c hab hbc => by simp_all; omega)
    (fun a b => by simpa using Nat.le_total a.pid b.pid)
    _).imp (fun h => by simpa using h)

/-- Claim C7: `spawned_by_us` is true exactly when the working directory
has an associated worktree and the command line contains a marker token;
`worktree_path` is derived from the directory association alone, and a
record can carry a worktree path while `spawned_by_us` is false. -/
theorem agent_spawned_by_us_classification (repo : String) (p : ProcInfo) :
    ((createAgentInfo repo p).spawned_by_us
      = ((findAssociatedWorktree repo p.cwd).isSome && containsMarker p.cmd)) ∧
    ((createAgentInfo repo p).worktree_path = findAssociatedWorktree repo p.cwd) ∧
    (∃ repo2 q, ((createAgentInfo repo2 q).worktree_path).isSome = true ∧
                (createAgentInfo repo2 q).spawned_by_us = false) := by
  refine ⟨?_, rfl, ⟨"/home/u/repo", pvim, rfl, rfl⟩⟩
  unfold createAgentInfo isSpawnedByUs
  cases hf : findAssociatedWorktree repo p.cwd <;> simp [hf]

/-- Helper: substring containment is preserved by prepending characters. -/
theorem containsSub_append_right (pat ys : List Char) (h : containsSub pat ys = true) :
    ∀ xs : List Char, containsSub pat (xs ++ ys) = true
  | [] => h
  | x :: rest => by
    have ih := containsSub_append_right pat ys h rest
    simp [containsSub, ih]

/-- Helper: substring containment is preserved by prepending a string. -/
theorem strContains_append_right (s t pat : String) (h : strContains t pat = true) :
    strContains (s ++ t) pat = true := by
  unfold strContains at h ⊢
  have hl : (s ++ t).toList = s.toList ++ t.toList := by
    simp [String.toList]
  rw [hl]
  exact containsSub_append_right pat.toList t.toList h s.toList

/-- Claim C9: `cleanup_worktree` with `kill_agents` and `remove_branch`
on an existing worktree with no agent running succeeds; the kill step
runs first and kills zero processes without error, then the worktree is
removed, then the branch, in exactly that order, and the result string
mentions the branch removal. -/
theorem cleanup_worktree_scenario (env : CleanupEnv) (cfg : CleanupConfig)
    (hg : env.isGitRepo = true) (hp : env.parentDir.isSome = true)
    (hw : env.worktreeExists = true) (hr : env.removeWorktreeOk = true)
    (hb : env.branchDeleteOk = true) (ha : env.agentsRunningInDir = 0)
    (hk : cfg.kill_agents = true) (hbr : cfg.remove_branch = true) :
    handleCleanupWorktree env cfg
      = (.ok (cleanupMsg cfg),
         [CleanupEvent.killAgents cfg.force, .removeWorktree, .removeBranch], 0) ∧
    strContains (cleanupMsg cfg) "and removed branch" = true := by
  obtain ⟨parent, hpar⟩ := Option.isSome_iff_exists.mp hp
  constructor
  · unfold handleCleanupWorktree
    rw [hg, hpar]
    simp [hw, hr, hb, hk, hbr]
  · unfold cleanupMsg
    rw [hbr]
    exact strContains_append_right _ _ _ (by decide)

/-- Witness for `cleanup_worktree_scenario` on the concrete environment
and request. -/
theorem cleanup_worktree_scenario_witness :
    handleCleanupWorktree cleanupEnvOk cleanupCfgFull
      = (.ok (cleanupMsg cleanupCfgFull),
         [CleanupEvent.killAgents false, .removeWorktree, .removeBranch], 0) ∧
    strContains (cleanupMsg cleanupCfgFull) "and removed branch" = true :=
  cleanup_worktree_scenario cleanupEnvOk cleanupCfgFull rfl rfl rfl rfl rfl rfl rfl rfl
